import Mathlib

/-!
# Verification of `tmexp.train_hdp` against its specification

Shallow embedding of `src/tmexp/io_constants.py` and `src/tmexp/train_hdp.py`.

Python integers are modelled as `Int`, floating-point vectors as `List ℚ`
(with `Option ℚ` where a non-finite result — NaN/Inf from a division by
zero — must be represented), fallible code as `Except PyErr`, and the file
system / I-O effects of `train_hdp` as an explicit trace of `Event`s.
-/

namespace TmExp

/-! ## io_constants.py -/

def BOW_DIR : String := "/data/bows"
def DOCWORD_FILENAME : String := "docword.bow_tm.txt"
def VOCAB_FILENAME : String := "vocab.bow_tm.txt"
def TOPICS_DIR : String := "/data/topics"
def DOCTOPIC_FILENAME : String := "doctopic.npy"
def WORDTOPIC_FILENAME : String := "wordtopic.npy"

/-- Modelled from the spec: `DOCWORD_CONCAT_FILENAME` is imported by
`train_hdp.py` from `io_constants` but its definition is not in the
provided `io_constants.py`; the spec only requires it to name the
consolidated training corpus file, a path distinct from `DOCWORD_FILENAME`. -/
def DOCWORD_CONCAT_FILENAME : String := "docword_concat.bow_tm.txt"

/-- `os.path.join a b` for a relative second component. -/
def pathJoin (a b : String) : String := a ++ "/" ++ b

/-! ## Errors

`indexError` and `fileNotFoundError` are the Python exceptions the code can
raise. `outputExistsError` models the abort performed by `utils.check_remove`
(not under `src/`, modelled from the spec). `malformedCorpusError` is the
error named by the spec for corpus validation; the code never raises it. -/

inductive PyErr
  | indexError
  | fileNotFoundError
  | outputExistsError
  | malformedCorpusError
  deriving DecidableEq, Repr

/-! ## Corpus reader (`create_gensim_corpus`, train_hdp.py lines 76-87)

A corpus file is modelled after its three header integers have been parsed
(`int(fin.readline())` three times) and each remaining data line has been
parsed by `map(int, line.split())` into exactly three integers; the claims
under study all concern files whose lines parse this way. -/

/-- `doc_id word_id count` as parsed from one data line. -/
structure DataLine where
  docId : Int
  wordId : Int
  count : Int
  deriving DecidableEq, Repr

structure CorpusFile where
  numDocs : Int
  numWords : Int
  numRows : Int
  dataLines : List DataLine
  deriving DecidableEq, Repr

/-- A gensim sparse document: list of `(word_id, count)` pairs. -/
abbrev SparseDoc := List (Int × Int)

abbrev GensimCorpus := List SparseDoc

/-- Python list indexing semantics for a list of length `len`:
`0 ≤ i < len` indexes directly, `-len ≤ i < 0` indexes from the end,
anything else raises `IndexError`. -/
def pyIndex (len : Nat) (i : Int) : Option Nat :=
  if 0 ≤ i ∧ i < (len : Int) then some i.toNat
  else if -(len : Int) ≤ i ∧ i < 0 then some (i + len).toNat
  else none

/-- One iteration of the reader loop:
`corpus[doc_id].append((word_id - 1, count))` — note the raw, unconverted
`doc_id` used as index, exactly as in train_hdp.py line 86. -/
def appendPair (corpus : GensimCorpus) (l : DataLine) : Except PyErr GensimCorpus :=
  match pyIndex corpus.length l.docId with
  | none => .error .indexError
  | some i => .ok (corpus.set i (corpus.getD i [] ++ [(l.wordId - 1, l.count)]))

/-- The reader loop `for line in tqdm.tqdm(fin, total=num_rows)`: it iterates
over every remaining line of the file; `num_rows` is passed to `tqdm` for
progress display only and never bounds the iteration. -/
def readDataLines : List DataLine → GensimCorpus → Except PyErr GensimCorpus
  | [], corpus => .ok corpus
  | l :: ls, corpus =>
    match appendPair corpus l with
    | .error e => .error e
    | .ok corpus' => readDataLines ls corpus'

/-- `create_gensim_corpus` (train_hdp.py lines 76-87):
allocate `[[] for _ in range(D)]` (empty for `D ≤ 0`, as `range`),
then run the append loop over all data lines. -/
def create_gensim_corpus (f : CorpusFile) : Except PyErr GensimCorpus :=
  readDataLines f.dataLines (List.replicate f.numDocs.toNat [])

/-- Total number of `(word_id, count)` pairs stored in a corpus. -/
def totalPairs (c : GensimCorpus) : Nat := (c.map List.length).sum

/-! ## Vocabulary loader (train_hdp.py lines 128-131)

`{i: word.replace("\n", "") for i, word in enumerate(fin)}`.

A text file is modelled by its raw lines (strings containing no newline
character) together with a flag telling whether the file ends with a final
newline. Python's line iteration then yields each raw line with a trailing
`"\n"` appended, except for the last one, which keeps its newline only when
the file ends with one. The dict produced by `enumerate` has keys exactly
`0 .. L-1`, so it is modelled by a list indexed by position. -/

/-- The strings yielded by Python's iteration over an open text file whose
raw lines are `ls` and which ends in a newline iff `trail` is true. -/
def pyFileLines : List String → Bool → List String
  | [], _ => []
  | [l], trail => [if trail then l ++ "\n" else l]
  | l :: l' :: ls, trail => (l ++ "\n") :: pyFileLines (l' :: ls) trail

/-- `word.replace("\n", "")`: remove every newline character. -/
def replaceNewlines (s : String) : String := ⟨s.data.filter (fun c => c ≠ '\n')⟩

/-- The vocabulary mapping built at train_hdp.py lines 128-131; entry `i` of
the list is the value of the dict at key `i`. -/
def loadVocab (ls : List String) (trail : Bool) : List String :=
  (pyFileLines ls trail).map replaceNewlines

/-- Written from the spec's words ("the i-th line with its trailing newline
stripped"): remove one final newline character if present, nothing else. -/
def stripTrailingNewline (s : String) : String :=
  if s.data.getLast? = some '\n' then ⟨s.data.dropLast⟩ else s

/-! ## Inference loop (train_hdp.py lines 159-162)

`gammas = hdp.inference([bow])[0]; document_topics[ind_doc, :] = gammas / sum(gammas)`

The trained gensim model is external to `src/`; the loop is parametrised by
the vector `gammas` it returns per document. numpy's elementwise division is
modelled over ℚ, with `none` standing for the non-finite value (NaN or Inf)
that numpy produces when the divisor is zero. -/

/-- numpy scalar division; `none` is the non-finite result of dividing
by zero (NaN for `0/0`, ±Inf otherwise). -/
def npDiv (x y : ℚ) : Option ℚ := if y = 0 then none else some (x / y)

/-- The row written into `document_topics` for one document:
`gammas / sum(gammas)`, with no guard on the divisor. -/
def inferRow (gammas : List ℚ) : List (Option ℚ) :=
  gammas.map (fun x => npDiv x gammas.sum)

/-- Sum of a matrix row; `none` as soon as one entry is non-finite. -/
def rowSum (r : List (Option ℚ)) : Option ℚ :=
  r.foldr (fun x acc =>
    match x, acc with
    | some a, some b => some (a + b)
    | _, _ => none) (some 0)

/-- Modelled from the spec: `gensim.models.HdpModel.inference` is not part of
`src/`. Spec §4.4 requires the engine to return, per document, a vector of
`T` nonnegative expected topic proportions, and records that its sum is zero
for a document with zero total word count ("can occur for an empty
document"). `EngineOK T inf` says `inf` is a possible behaviour of the
external engine. -/
def EngineOK (T : Nat) (inf : SparseDoc → List ℚ) : Prop :=
  ∀ d : SparseDoc,
    (inf d).length = T ∧ (∀ x ∈ inf d, 0 ≤ x) ∧ (d = [] → (inf d).sum = 0)

/-! ## The `train_hdp` command (train_hdp.py lines 91-170)

The command's interaction with the file system and the external library is
recorded as a trace of events, in program order. `utils.check_file_exists`,
`utils.check_remove` and `utils.create_directory` are not under `src/` and
are modelled from the spec (§6): an input path that does not exist is an
error; an existing destination aborts when `force` is false and is deleted
first when `force` is true. -/

inductive Event
  | checkFileExists (path : String)
  | checkRemove (path : String)
  | createDir (path : String)
  | readVocab (path : String)
  | readCorpus (path : String)
  | trainModel
  | inferDoc (i : Nat)
  | saveMatrix (path : String)
  deriving DecidableEq, Repr

/-- The file system and file contents visible to one run. -/
structure Env where
  existing : List String
  vocabLines : List String
  vocabTrail : Bool
  docwordFile : CorpusFile
  docwordConcatFile : CorpusFile

/-- The arguments of `train_hdp` that steer control flow; the numeric
hyperparameters are passed through unchanged to the external trainer and are
absorbed into the abstract inference engine. -/
structure Config where
  bow_name : String
  exp_name : String
  force : Bool
  consolidate : Bool

/-- Modelled from the spec: `utils.check_file_exists` fails when the input
path does not exist (input errors are reported immediately, §7). -/
def check_file_exists (env : Env) (p : String) : Except PyErr Unit :=
  if p ∈ env.existing then .ok () else .error .fileNotFoundError

/-- Modelled from the spec: `utils.check_remove` — "if the destination
exists and force is false, abort before any computation; if true, the
destination is deleted first" (§6). -/
def check_remove (env : Env) (p : String) (force : Bool) : Except PyErr Unit :=
  if p ∈ env.existing then
    if force then .ok () else .error .outputExistsError
  else .ok ()

/-- The inference loop of train_hdp.py lines 159-162: one engine invocation
and one written row per document of the corpus iterated over, in order. -/
def inferLoop (inf : SparseDoc → List ℚ) : Nat → List SparseDoc →
    List Event × List (List (Option ℚ))
  | _, [] => ([], [])
  | i, bow :: rest =>
    let rec' := inferLoop inf (i + 1) rest
    (Event.inferDoc i :: rec'.1, inferRow (inf bow) :: rec'.2)

/-- What a successful run produces (the in-memory values; the two `np.save`
calls are the final two events of the trace). -/
structure RunOutput where
  wordIndex : List String
  corpus : GensimCorpus
  trainingCorpus : GensimCorpus
  docTopics : List (List (Option ℚ))
  deriving DecidableEq, Repr

/-- `train_hdp` (train_hdp.py lines 91-170), with the external gensim model
abstracted by `inference`, which receives the vocabulary and the training
corpus (the inputs of `HdpModel(...)`) and a document, and returns that
document's `gammas` vector. Returns the event trace together with the
result. -/
def train_hdp (inference : List String → GensimCorpus → SparseDoc → List ℚ)
    (env : Env) (cfg : Config) : List Event × Except PyErr RunOutput :=
  let input_dir := pathJoin BOW_DIR cfg.bow_name
  let words_input_path := pathJoin input_dir VOCAB_FILENAME
  let docword_input_path := pathJoin input_dir DOCWORD_FILENAME
  let docword_concat_input_path := pathJoin input_dir DOCWORD_CONCAT_FILENAME
  let output_dir := pathJoin (pathJoin TOPICS_DIR cfg.bow_name) cfg.exp_name
  let doctopic_output_path := pathJoin output_dir DOCTOPIC_FILENAME
  let wordtopic_output_path := pathJoin output_dir WORDTOPIC_FILENAME
  let t1 := [Event.checkFileExists words_input_path]
  match check_file_exists env words_input_path with
  | .error e => (t1, .error e)
  | .ok _ =>
  let t2 := t1 ++ [Event.checkFileExists docword_input_path]
  match check_file_exists env docword_input_path with
  | .error e => (t2, .error e)
  | .ok _ =>
  let t3 := t2 ++ if cfg.consolidate
    then [Event.checkFileExists docword_concat_input_path] else []
  match if cfg.consolidate
    then check_file_exists env docword_concat_input_path
    else .ok () with
  | .error e => (t3, .error e)
  | .ok _ =>
  let t4 := t3 ++ [Event.checkRemove doctopic_output_path]
  match check_remove env doctopic_output_path cfg.force with
  | .error e => (t4, .error e)
  | .ok _ =>
  let t5 := t4 ++ [Event.checkRemove wordtopic_output_path]
  match check_remove env wordtopic_output_path cfg.force with
  | .error e => (t5, .error e)
  | .ok _ =>
  let t6 := t5 ++ [Event.createDir output_dir]
  let t7 := t6 ++ [Event.readVocab words_input_path]
  let word_index := loadVocab env.vocabLines env.vocabTrail
  let t8 := t7 ++ [Event.readCorpus docword_input_path]
  match create_gensim_corpus env.docwordFile with
  | .error e => (t8, .error e)
  | .ok corpus =>
  let t9 := t8 ++ if cfg.consolidate
    then [Event.readCorpus docword_concat_input_path] else []
  match if cfg.consolidate
    then create_gensim_corpus env.docwordConcatFile
    else .ok corpus with
  | .error e => (t9, .error e)
  | .ok training_corpus =>
  let t10 := t9 ++ [Event.trainModel]
  let loop := inferLoop (inference word_index training_corpus) 0 corpus
  let t11 := t10 ++ loop.1 ++
    [Event.saveMatrix doctopic_output_path, Event.saveMatrix wordtopic_output_path]
  (t11, .ok ⟨word_index, corpus, training_corpus, loop.2⟩)

/-- Is an event a corpus-file read? -/
def isReadCorpus : Event → Bool
  | .readCorpus _ => true
  | _ => false

/-- Is an event an inference-engine invocation of the output loop? -/
def isInferDoc : Event → Bool
  | .inferDoc _ => true
  | _ => false

/-- `Except.isOk` specialised to a run result. -/
def isOkRun : Except PyErr RunOutput → Bool
  | .ok _ => true
  | .error _ => false

/-! ## Lemmas about the corpus reader -/

theorem pyIndex_lt (len : Nat) (i : Int) {j : Nat} (h : pyIndex len i = some j) :
    j < len := by
  unfold pyIndex at h
  split at h
  · next hc =>
    simp only [Option.some.injEq] at h
    omega
  · split at h
    · next hc =>
      simp only [Option.some.injEq] at h
      omega
    · exact absurd h (by simp)

theorem pyIndex_self (len : Nat) : pyIndex len len = none := by
  unfold pyIndex
  split
  · next hc => omega
  · split
    · next hc => omega
    · rfl

theorem appendPair_error {c : GensimCorpus} {l : DataLine} {e : PyErr}
    (h : appendPair c l = .error e) : e = .indexError := by
  unfold appendPair at h
  split at h
  · simp only [Except.error.injEq] at h
    exact h.symm
  · exact absurd h (by simp)

theorem appendPair_length {c c' : GensimCorpus} {l : DataLine}
    (h : appendPair c l = .ok c') : c'.length = c.length := by
  unfold appendPair at h
  split at h
  · exact absurd h (by simp)
  · simp only [Except.ok.injEq] at h
    subst h
    exact List.length_set ..

theorem appendPair_docId_self {c : GensimCorpus} {l : DataLine}
    (h : l.docId = (c.length : Int)) : appendPair c l = .error .indexError := by
  unfold appendPair
  rw [h, pyIndex_self]

/-- Replacing element `i` of a corpus by that element with one extra pair
grows the total pair count by one. -/
theorem totalPairs_set_append {c : GensimCorpus} {i : Nat} (h : i < c.length)
    (p : Int × Int) :
    totalPairs (c.set i (c.getD i [] ++ [p])) = totalPairs c + 1 := by
  induction c generalizing i with
  | nil => simp at h
  | cons d ds ih =>
    cases i with
    | zero => simp [totalPairs, Nat.add_assoc, Nat.add_comm 1]
    | succ j =>
      have hj : j < ds.length := by simpa using h
      simp only [List.set_cons_succ, List.getD_cons_succ, totalPairs, List.map_cons,
        List.sum_cons] at *
      rw [ih hj]
      omega

theorem readDataLines_error {ls : List DataLine} {c : GensimCorpus} {e : PyErr}
    (h : readDataLines ls c = .error e) : e = .indexError := by
  induction ls generalizing c with
  | nil => simp [readDataLines] at h
  | cons l ls ih =>
    unfold readDataLines at h
    split at h
    · next heq =>
      cases h
      exact appendPair_error heq
    · exact ih h

theorem readDataLines_totalPairs {ls : List DataLine} {c c' : GensimCorpus}
    (h : readDataLines ls c = .ok c') :
    totalPairs c' = totalPairs c + ls.length := by
  induction ls generalizing c with
  | nil =>
    simp only [readDataLines, Except.ok.injEq] at h
    simp [h]
  | cons l ls ih =>
    unfold readDataLines at h
    split at h
    · exact absurd h (by simp)
    · next c'' heq =>
      have hgrow : totalPairs c'' = totalPairs c + 1 := by
        unfold appendPair at heq
        split at heq
        · exact absurd heq (by simp)
        · next i hidx =>
          simp only [Except.ok.injEq] at heq
          subst heq
          exact totalPairs_set_append (pyIndex_lt _ _ hidx) _
      rw [ih h, hgrow]
      simp only [List.length_cons]
      omega

theorem readDataLines_docId_len {ls : List DataLine} {c : GensimCorpus}
    (h : ∃ l ∈ ls, l.docId = (c.length : Int)) :
    readDataLines ls c = .error .indexError := by
  induction ls generalizing c with
  | nil => simp at h
  | cons l ls ih =>
    rcases h with ⟨l', hl', hid⟩
    rcases List.mem_cons.mp hl' with rfl | hmem
    · unfold readDataLines
      rw [appendPair_docId_self hid]
    · unfold readDataLines
      split
      · next e heq => rw [appendPair_error heq]
      · next c'' heq =>
        exact ih ⟨l', hmem, by rw [appendPair_length heq]; exact hid⟩

/-! ## Lemmas about the vocabulary loader -/

theorem replaceNewlines_of_clean {s : String} (h : ∀ ch ∈ s.data, ch ≠ '\n') :
    replaceNewlines s = s := by
  apply String.ext
  show List.filter (fun c => decide (c ≠ '\n')) s.data = s.data
  exact List.filter_eq_self.mpr (fun ch hch => by simpa using h ch hch)

theorem replaceNewlines_append_newline (s : String) :
    replaceNewlines (s ++ "\n") = replaceNewlines s := by
  unfold replaceNewlines
  simp [String.data_append]

theorem stripTrailingNewline_of_clean {s : String} (h : ∀ ch ∈ s.data, ch ≠ '\n') :
    stripTrailingNewline s = s := by
  unfold stripTrailingNewline
  split
  · next hlast =>
    exact absurd hlast (by
      intro hc
      obtain ⟨hne, heq⟩ := List.mem_getLast?_eq_getLast (Option.mem_def.mpr hc)
      exact h '\n' (by rw [heq]; exact List.getLast_mem hne) rfl)
  · rfl

theorem stripTrailingNewline_append_newline (s : String) :
    stripTrailingNewline (s ++ "\n") = s := by
  unfold stripTrailingNewline
  split
  · next hlast =>
    cases s with
    | mk data =>
      apply String.ext
      show ((⟨data⟩ : String) ++ "\n").data.dropLast = data
      rw [String.data_append]
      exact List.dropLast_concat ..
  · next hlast =>
    exact absurd (by rw [String.data_append]; exact List.getLast?_concat _) hlast

/-! ## Lemmas about the inference loop -/

theorem rowSum_map_some (l : List ℚ) : rowSum (l.map some) = some l.sum := by
  induction l with
  | nil => rfl
  | cons x xs ih =>
    unfold rowSum at ih ⊢
    simp only [List.map_cons, List.foldr_cons, List.sum_cons]
    rw [ih]

theorem inferRow_of_sum_ne_zero {g : List ℚ} (h : g.sum ≠ 0) :
    inferRow g = (g.map (fun x => x / g.sum)).map some := by
  unfold inferRow npDiv
  rw [List.map_map]
  exact List.map_congr_left (fun x _ => by simp [h])

theorem sum_map_div (g : List ℚ) (s : ℚ) :
    (g.map (fun x => x / s)).sum = g.sum / s := by
  induction g with
  | nil => simp
  | cons x xs ih => simp [ih, add_div]

theorem rowSum_inferRow {g : List ℚ} (h : g.sum ≠ 0) :
    rowSum (inferRow g) = some 1 := by
  rw [inferRow_of_sum_ne_zero h, rowSum_map_some, sum_map_div, div_self h]

theorem inferRow_of_sum_zero {g : List ℚ} (h : g.sum = 0) :
    inferRow g = List.replicate g.length none := by
  unfold inferRow npDiv
  rw [h]
  simp [List.map_const]

theorem inferLoop_snd (inf : SparseDoc → List ℚ) (i : Nat) (docs : List SparseDoc) :
    (inferLoop inf i docs).2 = docs.map (fun bow => inferRow (inf bow)) := by
  induction docs generalizing i with
  | nil => rfl
  | cons d ds ih => simp [inferLoop, ih]

theorem inferLoop_fst (inf : SparseDoc → List ℚ) (i : Nat) (docs : List SparseDoc) :
    (inferLoop inf i docs).1 = (List.range' i docs.length).map Event.inferDoc := by
  induction docs generalizing i with
  | nil => rfl
  | cons d ds ih => simp [inferLoop, ih, List.range']

theorem loadVocab_of_clean : ∀ (ls : List String) (trail : Bool),
    (∀ s ∈ ls, ∀ ch ∈ s.data, ch ≠ '\n') → loadVocab ls trail = ls
  | [], _, _ => rfl
  | [l], trail, h => by
    cases trail <;>
      simp [loadVocab, pyFileLines, replaceNewlines_append_newline,
        replaceNewlines_of_clean (h l (by simp))]
  | l :: l' :: ls, trail, h => by
    have ih := loadVocab_of_clean (l' :: ls) trail
      (fun s hs => h s (List.mem_cons_of_mem _ hs))
    simp only [loadVocab, pyFileLines, List.map_cons] at ih ⊢
    rw [replaceNewlines_append_newline, replaceNewlines_of_clean (h l (by simp)), ih]

theorem pyFileLines_map_strip : ∀ (ls : List String) (trail : Bool),
    (∀ s ∈ ls, ∀ ch ∈ s.data, ch ≠ '\n') →
    (pyFileLines ls trail).map stripTrailingNewline = ls
  | [], _, _ => rfl
  | [l], trail, h => by
    cases trail <;>
      simp [pyFileLines, stripTrailingNewline_append_newline,
        stripTrailingNewline_of_clean (h l (by simp))]
  | l :: l' :: ls, trail, h => by
    have ih := pyFileLines_map_strip (l' :: ls) trail
      (fun s hs => h s (List.mem_cons_of_mem _ hs))
    simp only [pyFileLines, List.map_cons] at ih ⊢
    rw [stripTrailingNewline_append_newline, ih]

/-! ## Claims -/

/-- C1: the spec ("Reader allocates D empty documents, then for each of the N
lines appends `(word_id - 1, count)` to document `doc_id`'s (also converted to
0-based) sparse vector") is the intent, but the code indexes the list with the
raw, 1-based `doc_id` (train_hdp.py line 86): evaluated on the minimal
well-formed corpus file `D=1, V=1, N=1` with data line `1 1 1`, the reader
raises `IndexError` instead of appending the pair to document 0. -/
theorem claim_C1_code_eval :
    create_gensim_corpus ⟨1, 1, 1, [⟨1, 1, 1⟩]⟩ = .error .indexError := rfl

/-- C10: `create_gensim_corpus` indexes the allocated document list with the
raw, unconverted 1-based `doc_id`; every corpus file declaring `D ≥ 1`
documents that contains a data line with `doc_id = D` makes the reader raise
an uncaught `IndexError` instead of returning a corpus. -/
theorem claim_C10 : ∀ f : CorpusFile, 1 ≤ f.numDocs →
    (∃ l ∈ f.dataLines, l.docId = f.numDocs) →
    create_gensim_corpus f = .error .indexError := by
  rintro f h1 ⟨l, hl, hid⟩
  unfold create_gensim_corpus
  apply readDataLines_docId_len
  refine ⟨l, hl, ?_⟩
  rw [List.length_replicate, Int.toNat_of_nonneg (by omega)]
  exact hid

/-- Witness for C10 at the file `D=2, V=3, N=1` with data line `2 1 1`. -/
theorem claim_C10_witness :
    1 ≤ (⟨2, 3, 1, [⟨2, 1, 1⟩]⟩ : CorpusFile).numDocs ∧
    create_gensim_corpus ⟨2, 3, 1, [⟨2, 1, 1⟩]⟩ = .error .indexError :=
  ⟨by decide, claim_C10 _ (by decide) ⟨⟨2, 1, 1⟩, by simp, rfl⟩⟩

/-- C4 counterexample: a data line with `doc_id = 0` (outside `[1, D]`),
`word_id = 99` (outside `[1, V]` for `V = 1`) and `count = 0` (not `> 0`) is
read without any error: the reader returns a corpus (with the pair silently
appended to document 0) instead of raising `MalformedCorpusError`. -/
theorem claim_C4_counterexample :
    create_gensim_corpus ⟨1, 1, 1, [⟨0, 99, 0⟩]⟩ = .ok [[(98, 0)]] := rfl

/-- C4 amended: the reader performs no validation at all; the only error it
can raise is the `IndexError` coming from Python list indexing (raw `doc_id`
not in `[-D, D)`); `MalformedCorpusError` is never raised. -/
theorem claim_C4_amended : ∀ (f : CorpusFile) (e : PyErr),
    create_gensim_corpus f = .error e → e = .indexError :=
  fun _ _ h => readDataLines_error h

/-- Witness for C4 amended at the erroring file `D=1` with line `5 1 1`. -/
theorem claim_C4_amended_witness :
    create_gensim_corpus ⟨1, 1, 1, [⟨5, 1, 1⟩]⟩ = .error .indexError ∧
    PyErr.indexError = PyErr.indexError :=
  ⟨rfl, claim_C4_amended ⟨1, 1, 1, [⟨5, 1, 1⟩]⟩ .indexError rfl⟩

/-- C5 counterexample: a file declaring `N = 2` pairs but containing a single
data line is read without error, producing a corpus with 1 pair: the declared
`N` is not enforced (it is only passed to the progress bar). -/
theorem claim_C5_counterexample :
    create_gensim_corpus ⟨1, 1, 2, [⟨0, 1, 1⟩]⟩ = .ok [[(0, 1)]] ∧
    totalPairs [[(0, 1)]] = 1 ∧
    (⟨1, 1, 2, [⟨0, 1, 1⟩]⟩ : CorpusFile).numRows = 2 :=
  ⟨rfl, rfl, rfl⟩

/-- C5 amended: the reader ignores the declared `N` entirely; on success the
total pair count of the produced corpus equals the number of data lines
actually present in the file, whatever `N` says, and no error is raised for a
mismatch. -/
theorem claim_C5_amended : ∀ (f : CorpusFile) (c : GensimCorpus),
    create_gensim_corpus f = .ok c → totalPairs c = f.dataLines.length := by
  intro f c h
  have h0 : totalPairs (List.replicate f.numDocs.toNat ([] : SparseDoc)) = 0 := by
    simp [totalPairs, List.map_replicate, List.sum_replicate]
  have htot := readDataLines_totalPairs h
  rw [h0] at htot
  omega

/-- Witness for C5 amended at the file declaring `N = 2` with one data line. -/
theorem claim_C5_amended_witness :
    totalPairs [[(0, 1)]] = (⟨1, 1, 2, [⟨0, 1, 1⟩]⟩ : CorpusFile).dataLines.length :=
  claim_C5_amended ⟨1, 1, 2, [⟨0, 1, 1⟩]⟩ [[(0, 1)]] rfl

/-- C9: for every vocabulary file (raw lines contain no newline character, as
Python's text-mode line iteration guarantees), the loader produces a mapping
with exactly one entry per line, whose entry `i` is the `i`-th enumerated line
with its trailing newline stripped — equivalently, the raw line itself: the
code's `word.replace("\n", "")` agrees with the spec's "trailing newline
stripped". -/
theorem claim_C9 : ∀ (ls : List String) (trail : Bool),
    (∀ s ∈ ls, ∀ ch ∈ s.data, ch ≠ '\n') →
    loadVocab ls trail = ls ∧
    (loadVocab ls trail).length = ls.length ∧
    loadVocab ls trail = (pyFileLines ls trail).map stripTrailingNewline := by
  intro ls trail h
  have hv := loadVocab_of_clean ls trail h
  have hs := pyFileLines_map_strip ls trail h
  exact ⟨hv, by rw [hv], by rw [hv, hs]⟩

/-- Witness for C9 on the two-line vocabulary `cat`, `dog`. -/
theorem claim_C9_witness :
    loadVocab ["cat", "dog"] true = ["cat", "dog"] ∧
    (loadVocab ["cat", "dog"] true).length = (["cat", "dog"] : List String).length ∧
    loadVocab ["cat", "dog"] true =
      (pyFileLines ["cat", "dog"] true).map stripTrailingNewline :=
  claim_C9 ["cat", "dog"] true (by decide)

/-- C2 counterexample: with the engine behaviour the spec itself records for
an empty document (zero gamma sum), the inference loop writes a non-finite row
for that document; its sum is `none` (NaN), not 1, for `T = 1 ≥ 1`. -/
theorem claim_C2_counterexample :
    EngineOK 1 (fun _ => [(0 : ℚ)]) ∧
    (inferLoop (fun _ => [(0 : ℚ)]) 0 [[]]).2 = [[none]] ∧
    rowSum [none] = none := by
  refine ⟨?_, ?_, rfl⟩
  · intro d
    refine ⟨rfl, ?_, fun _ => by simp⟩
    intro x hx
    simp only [List.mem_singleton] at hx
    simp [hx]
  · norm_num [inferLoop, inferRow, npDiv]

/-- C2 amended: the row the loop writes for document `bow` is
`inferRow (inf bow)`, and for every individual document whose gamma vector
has nonzero sum that row is an exact probability row (sums to 1) — even in a
corpus that also contains empty documents. A zero-sum gamma vector — which
the spec records for an empty document — instead yields a non-finite (NaN)
row. -/
theorem claim_C2_amended : ∀ (inf : SparseDoc → List ℚ) (corpus : List SparseDoc),
    (inferLoop inf 0 corpus).2 = corpus.map (fun bow => inferRow (inf bow)) ∧
    ∀ bow ∈ corpus, (inf bow).sum ≠ 0 → rowSum (inferRow (inf bow)) = some 1 :=
  fun inf corpus =>
    ⟨inferLoop_snd inf 0 corpus, fun _ _ h => rowSum_inferRow h⟩

/-- Witness for C2 amended: in a corpus mixing an empty document (zero gamma
sum) with a nonempty one (gammas `[1, 1]`), the nonempty document's row sums
to 1. -/
theorem claim_C2_amended_witness :
    rowSum (inferRow ((fun d : SparseDoc => if d = [] then [(0 : ℚ)] else [1, 1])
      [(0, 2)])) = some 1 :=
  (claim_C2_amended (fun d : SparseDoc => if d = [] then [(0 : ℚ)] else [1, 1])
    [[], [(0, 2)]]).2 [(0, 2)] (by simp) (by norm_num)

/-- C3 counterexample: for a document with zero total word count the loop does
not flag anything — it cannot, its type has no error outcome — and performs
the division anyway, writing the NaN row `[none]` into the matrix. -/
theorem claim_C3_counterexample :
    EngineOK 1 (fun _ => [(0 : ℚ)]) ∧
    inferLoop (fun _ => [(0 : ℚ)]) 0 [[]] = ([Event.inferDoc 0], [[none]]) := by
  refine ⟨?_, ?_⟩
  · intro d
    refine ⟨rfl, ?_, fun _ => by simp⟩
    intro x hx
    simp only [List.mem_singleton] at hx
    simp [hx]
  · norm_num [inferLoop, inferRow, npDiv]

/-- C3 amended: the division is performed unconditionally: the loop writes a
row for every document (no error is flagged or propagated), and for a document
with zero total word count the written row is the length-`T` non-finite (NaN)
row. -/
theorem claim_C3_amended : ∀ (T : Nat) (inf : SparseDoc → List ℚ),
    EngineOK T inf → ∀ corpus : List SparseDoc,
    (inferLoop inf 0 corpus).2.length = corpus.length ∧
    ∀ bow ∈ corpus, bow = [] → inferRow (inf bow) = List.replicate T none := by
  intro T inf hE corpus
  refine ⟨by rw [inferLoop_snd, List.length_map], ?_⟩
  intro bow _ hbow
  obtain ⟨hlen, _, hzero⟩ := hE bow
  rw [inferRow_of_sum_zero (hzero hbow), hlen]

/-- Witness for C3 amended on the one-empty-document corpus. -/
theorem claim_C3_amended_witness :
    (inferLoop (fun _ => [(0 : ℚ)]) 0 [[]]).2.length = 1 ∧
    inferRow ((fun _ : SparseDoc => [(0 : ℚ)]) []) = List.replicate 1 none := by
  have h := claim_C3_amended 1 (fun _ => [(0 : ℚ)])
    (fun d => ⟨rfl, by intro x hx; simp only [List.mem_singleton] at hx; simp [hx],
      fun _ => by simp⟩) [[]]
  exact ⟨by simpa using h.1, h.2 [] (by simp) rfl⟩

/-! ## Lemmas about the `train_hdp` trace -/

theorem check_remove_ok_notin {env : Env} {p : String} {u : Unit}
    (h : check_remove env p false = .ok u) : p ∉ env.existing := by
  intro hp
  unfold check_remove at h
  rw [if_pos hp] at h
  simp at h

theorem filter_isReadCorpus_inferLoop (inf : SparseDoc → List ℚ) (i : Nat)
    (docs : List SparseDoc) : (inferLoop inf i docs).1.filter isReadCorpus = [] := by
  rw [inferLoop_fst]
  refine List.filter_eq_nil_iff.mpr ?_
  intro a ha
  obtain ⟨j, _, rfl⟩ := List.mem_map.mp ha
  simp [isReadCorpus]

theorem filter_isInferDoc_inferLoop (inf : SparseDoc → List ℚ) (i : Nat)
    (docs : List SparseDoc) :
    (inferLoop inf i docs).1.filter isInferDoc = (inferLoop inf i docs).1 := by
  rw [inferLoop_fst]
  refine List.filter_eq_self.mpr ?_
  intro a ha
  obtain ⟨j, _, rfl⟩ := List.mem_map.mp ha
  simp [isInferDoc]

/-- C6: with `force = false` and an already-existing output destination (the
document-topic or the word-topic file), the run aborts — the result is not a
success — and the trace contains no corpus-file read: the Corpus Reader is
never invoked. (The output checks at train_hdp.py lines 120-125 run before
the corpus reads at lines 133-139; `check_remove` is modelled from the
spec.) -/
theorem claim_C6 : ∀ (inference : List String → GensimCorpus → SparseDoc → List ℚ)
    (env : Env) (cfg : Config),
    cfg.force = false →
    (pathJoin (pathJoin (pathJoin TOPICS_DIR cfg.bow_name) cfg.exp_name) DOCTOPIC_FILENAME
        ∈ env.existing ∨
      pathJoin (pathJoin (pathJoin TOPICS_DIR cfg.bow_name) cfg.exp_name) WORDTOPIC_FILENAME
        ∈ env.existing) →
    isOkRun (train_hdp inference env cfg).2 = false ∧
    (train_hdp inference env cfg).1.filter isReadCorpus = [] := by
  intro inference env cfg hf hex
  unfold train_hdp
  simp only [hf]
  split
  · simp [isOkRun, isReadCorpus]
  · split
    · simp [isOkRun, isReadCorpus]
    · split
      · simp [isOkRun, isReadCorpus, List.filter_append]
      · split
        · simp [isOkRun, isReadCorpus, List.filter_append]
        · next u1 hd =>
          split
          · simp [isOkRun, isReadCorpus, List.filter_append]
          · next u2 hw =>
            rcases hex with h | h
            · exact absurd h (check_remove_ok_notin hd)
            · exact absurd h (check_remove_ok_notin hw)

/-- Witness for C6: the document-topic output file already exists and
`force = false`; the run errors out with no corpus read in its trace. -/
theorem claim_C6_witness :
    isOkRun (train_hdp (fun _ _ _ => [])
      ⟨[pathJoin (pathJoin BOW_DIR "b") VOCAB_FILENAME,
        pathJoin (pathJoin BOW_DIR "b") DOCWORD_FILENAME,
        pathJoin (pathJoin (pathJoin TOPICS_DIR "b") "e") DOCTOPIC_FILENAME],
       ["cat"], true, ⟨1, 1, 1, [⟨0, 1, 1⟩]⟩, ⟨0, 0, 0, []⟩⟩
      ⟨"b", "e", false, false⟩).2 = false ∧
    (train_hdp (fun _ _ _ => [])
      ⟨[pathJoin (pathJoin BOW_DIR "b") VOCAB_FILENAME,
        pathJoin (pathJoin BOW_DIR "b") DOCWORD_FILENAME,
        pathJoin (pathJoin (pathJoin TOPICS_DIR "b") "e") DOCTOPIC_FILENAME],
       ["cat"], true, ⟨1, 1, 1, [⟨0, 1, 1⟩]⟩, ⟨0, 0, 0, []⟩⟩
      ⟨"b", "e", false, false⟩).1.filter isReadCorpus = [] :=
  claim_C6 _ _ _ rfl (Or.inl (by simp))

/-- C7: when `consolidate` is false the training corpus is the very corpus
object read from the full-corpus file (train_hdp.py line 139), and the whole
run reads exactly one corpus file — the full-corpus one. -/
theorem claim_C7 : ∀ (inference : List String → GensimCorpus → SparseDoc → List ℚ)
    (env : Env) (cfg : Config),
    cfg.consolidate = false →
    ∀ out : RunOutput, (train_hdp inference env cfg).2 = .ok out →
    out.trainingCorpus = out.corpus ∧
    (train_hdp inference env cfg).1.filter isReadCorpus =
      [Event.readCorpus (pathJoin (pathJoin BOW_DIR cfg.bow_name) DOCWORD_FILENAME)] := by
  intro inference env cfg hc out hout
  unfold train_hdp at hout ⊢
  simp only [hc, Bool.false_eq_true, if_false] at hout ⊢
  split at hout
  · simp at hout
  · next u1 h1 =>
    split at hout
    · simp at hout
    · next u2 h2 =>
      split at hout
      · simp at hout
      · next u3 h3 =>
        split at hout
        · simp at hout
        · next u4 h4 =>
          split at hout
          · simp at hout
          · next corpus h5 =>
            simp only [Except.ok.injEq] at hout
            subst hout
            simp only [h1, h2, h3, h4, h5]
            refine ⟨by trivial, ?_⟩
            simp [List.filter_append, isReadCorpus, filter_isReadCorpus_inferLoop]

/-- Witness for C7: a successful non-consolidated run on a one-document
corpus; the training corpus equals the full corpus and exactly one corpus
file is read. -/
theorem claim_C7_witness :
    (⟨["cat"], [[(0, 1)]], [[(0, 1)]], [[some 1]]⟩ : RunOutput).trainingCorpus =
      (⟨["cat"], [[(0, 1)]], [[(0, 1)]], [[some 1]]⟩ : RunOutput).corpus ∧
    (train_hdp (fun _ _ _ => [1])
      ⟨[pathJoin (pathJoin BOW_DIR "b") VOCAB_FILENAME,
        pathJoin (pathJoin BOW_DIR "b") DOCWORD_FILENAME],
       ["cat"], true, ⟨1, 1, 1, [⟨0, 1, 1⟩]⟩, ⟨0, 0, 0, []⟩⟩
      ⟨"b", "e", false, false⟩).1.filter isReadCorpus =
      [Event.readCorpus (pathJoin (pathJoin BOW_DIR "b") DOCWORD_FILENAME)] :=
  claim_C7 (fun _ _ _ => [1])
    ⟨[pathJoin (pathJoin BOW_DIR "b") VOCAB_FILENAME,
      pathJoin (pathJoin BOW_DIR "b") DOCWORD_FILENAME],
     ["cat"], true, ⟨1, 1, 1, [⟨0, 1, 1⟩]⟩, ⟨0, 0, 0, []⟩⟩
    ⟨"b", "e", false, false⟩ rfl ⟨["cat"], [[(0, 1)]], [[(0, 1)]], [[some 1]]⟩
    (by
      have h1 : (pathJoin (pathJoin (pathJoin TOPICS_DIR "b") "e") DOCTOPIC_FILENAME ∈
          ([pathJoin (pathJoin BOW_DIR "b") VOCAB_FILENAME,
            pathJoin (pathJoin BOW_DIR "b") DOCWORD_FILENAME] : List String)) ↔ False := by
        decide
      have h2 : (pathJoin (pathJoin (pathJoin TOPICS_DIR "b") "e") WORDTOPIC_FILENAME ∈
          ([pathJoin (pathJoin BOW_DIR "b") VOCAB_FILENAME,
            pathJoin (pathJoin BOW_DIR "b") DOCWORD_FILENAME] : List String)) ↔ False := by
        decide
      have hv : replaceNewlines ("cat" ++ "\n") = "cat" := rfl
      norm_num [train_hdp, check_file_exists, check_remove, create_gensim_corpus,
        readDataLines, appendPair, pyIndex, loadVocab, pyFileLines, hv, h1, h2,
        inferLoop, inferRow, npDiv])

/-- C8: on every successful run the document-topic matrix has exactly one row
per document of the full corpus, and the inference engine is invoked exactly
once per full-corpus document, in index order — regardless of whether a
separate consolidated corpus was used for training. -/
theorem claim_C8 : ∀ (inference : List String → GensimCorpus → SparseDoc → List ℚ)
    (env : Env) (cfg : Config) (out : RunOutput),
    (train_hdp inference env cfg).2 = .ok out →
    out.docTopics.length = out.corpus.length ∧
    (train_hdp inference env cfg).1.filter isInferDoc =
      (List.range out.corpus.length).map Event.inferDoc := by
  intro inference env cfg out hout
  cases hcons : cfg.consolidate with
  | false =>
    unfold train_hdp at hout ⊢
    simp only [hcons, Bool.false_eq_true, if_false] at hout ⊢
    split at hout
    · simp at hout
    · next u1 h1 =>
      split at hout
      · simp at hout
      · next u2 h2 =>
        split at hout
        · simp at hout
        · next u3 h3 =>
          split at hout
          · simp at hout
          · next u4 h4 =>
            split at hout
            · simp at hout
            · next corpus h5 =>
              simp only [Except.ok.injEq] at hout
              subst hout
              simp only [h1, h2, h3, h4, h5]
              constructor
              · simp [inferLoop_snd]
              · simp [List.filter_append, isInferDoc, filter_isInferDoc_inferLoop,
                  inferLoop_fst, List.range_eq_range']
  | true =>
    unfold train_hdp at hout ⊢
    simp only [hcons, eq_self_iff_true, if_true] at hout ⊢
    split at hout
    · simp at hout
    · next u1 h1 =>
      split at hout
      · simp at hout
      · next u2 h2 =>
        split at hout
        · simp at hout
        · next u3 h3 =>
          split at hout
          · simp at hout
          · next u4 h4 =>
            split at hout
            · simp at hout
            · next u5 h5 =>
              split at hout
              · simp at hout
              · next corpus h6 =>
                split at hout
                · simp at hout
                · next tc h7 =>
                  simp only [Except.ok.injEq] at hout
                  subst hout
                  simp only [h1, h2, h3, h4, h5, h6, h7]
                  constructor
                  · simp [inferLoop_snd]
                  · simp [List.filter_append, isInferDoc, filter_isInferDoc_inferLoop,
                      inferLoop_fst, List.range_eq_range']

/-- Witness for C8: a successful consolidated run — the full corpus has two
documents, the consolidated training corpus one — still produces one row and
one engine invocation per full-corpus document. -/
theorem claim_C8_witness :
    (⟨["cat"], [[(0, 1)], [(0, 2)]], [[(0, 3)]], [[some 1], [some 1]]⟩
        : RunOutput).docTopics.length =
      (⟨["cat"], [[(0, 1)], [(0, 2)]], [[(0, 3)]], [[some 1], [some 1]]⟩
        : RunOutput).corpus.length ∧
    (train_hdp (fun _ _ _ => [1])
      ⟨[pathJoin (pathJoin BOW_DIR "b") VOCAB_FILENAME,
        pathJoin (pathJoin BOW_DIR "b") DOCWORD_FILENAME,
        pathJoin (pathJoin BOW_DIR "b") DOCWORD_CONCAT_FILENAME],
       ["cat"], true, ⟨2, 1, 2, [⟨0, 1, 1⟩, ⟨1, 1, 2⟩]⟩, ⟨1, 1, 2, [⟨0, 1, 3⟩]⟩⟩
      ⟨"b", "e", false, true⟩).1.filter isInferDoc =
      (List.range (⟨["cat"], [[(0, 1)], [(0, 2)]], [[(0, 3)]], [[some 1], [some 1]]⟩
        : RunOutput).corpus.length).map Event.inferDoc :=
  claim_C8 (fun _ _ _ => [1])
    ⟨[pathJoin (pathJoin BOW_DIR "b") VOCAB_FILENAME,
      pathJoin (pathJoin BOW_DIR "b") DOCWORD_FILENAME,
      pathJoin (pathJoin BOW_DIR "b") DOCWORD_CONCAT_FILENAME],
     ["cat"], true, ⟨2, 1, 2, [⟨0, 1, 1⟩, ⟨1, 1, 2⟩]⟩, ⟨1, 1, 2, [⟨0, 1, 3⟩]⟩⟩
    ⟨"b", "e", false, true⟩
    ⟨["cat"], [[(0, 1)], [(0, 2)]], [[(0, 3)]], [[some 1], [some 1]]⟩
    (by
      have h1 : (pathJoin (pathJoin (pathJoin TOPICS_DIR "b") "e") DOCTOPIC_FILENAME ∈
          ([pathJoin (pathJoin BOW_DIR "b") VOCAB_FILENAME,
            pathJoin (pathJoin BOW_DIR "b") DOCWORD_FILENAME,
            pathJoin (pathJoin BOW_DIR "b") DOCWORD_CONCAT_FILENAME] : List String)) ↔
          False := by decide
      have h2 : (pathJoin (pathJoin (pathJoin TOPICS_DIR "b") "e") WORDTOPIC_FILENAME ∈
          ([pathJoin (pathJoin BOW_DIR "b") VOCAB_FILENAME,
            pathJoin (pathJoin BOW_DIR "b") DOCWORD_FILENAME,
            pathJoin (pathJoin BOW_DIR "b") DOCWORD_CONCAT_FILENAME] : List String)) ↔
          False := by decide
      have hv : replaceNewlines ("cat" ++ "\n") = "cat" := rfl
      norm_num [train_hdp, check_file_exists, check_remove, create_gensim_corpus,
        readDataLines, appendPair, pyIndex, loadVocab, pyFileLines, hv, h1, h2,
        inferLoop, inferRow, npDiv]
      decide)

end TmExp
